import Mathlib

/-!
# tmux-styler (`main.go`): a shallow embedding and its verified properties

The program shells out to `tmux`, splits the colon-delimited listing it gets
back, and reprints it with `lipgloss` styling.

Modelling choices.

* A Go `string` / `[]byte` is a list of bytes (`GoString`), each byte a natural
  number.  Nothing below assumes the bytes form valid UTF-8.
* The Go standard library functions the program calls (`strings.TrimSpace`,
  `strings.Split`, `strings.ToUpper`) are transcribed from the Go
  implementation; `fmt.Sprintf` with `%s` verbs is concatenation.  The Unicode
  case table behind `unicode.ToUpper` is a parameter.
* `lipgloss` is a third-party library: `Style.Render` and `JoinHorizontal` are
  parameters (`Lipgloss`).  "Up to styling" means: instantiated with
  `Lipgloss.plain`, the library that renders every text unchanged.
* The `tmux` subprocess is a parameter too: a function from the argument
  vector to the pair `(output, err)` that `cmd.Output()` returns.
* A run of the program is the record of what it wrote to standard output
  (one entry per `fmt.Println`/`fmt.Printf` call), which subprocesses it
  started, and how it ended (`os.Exit` code, normal return, or a runtime
  panic on an index out of range).
-/

namespace TmuxStyler

/-! ## Go strings -/

/-- A Go string: a sequence of bytes. -/
abbrev GoString := List Nat

/-- Go's `utf8.RuneError`, U+FFFD. -/
def RuneError : Nat := 0xFFFD

/-- Go's `utf8.RuneSelf`: bytes below it are single-byte runes. -/
def RuneSelf : Nat := 0x80

/-- Go's `utf8.UTFMax`. -/
def UTFMax : Nat := 4

/-- Go's `utf8.MaxRune`. -/
def MaxRune : Nat := 0x10FFFF

/-- Go's `utf8.AppendRune` / `Builder.WriteRune`: the UTF-8 encoding of a rune;
surrogates and out-of-range values are encoded as `RuneError`. -/
def EncodeRune (r : Nat) : GoString :=
  if r ≤ 0x7F then [r]
  else if r ≤ 0x7FF then [0xC0 + r / 64, 0x80 + r % 64]
  else if r > MaxRune ∨ (0xD800 ≤ r ∧ r ≤ 0xDFFF) then [0xEF, 0xBF, 0xBD]
  else if r ≤ 0xFFFF then [0xE0 + r / 4096, 0x80 + r / 64 % 64, 0x80 + r % 64]
  else [0xF0 + r / 262144, 0x80 + r / 4096 % 64, 0x80 + r / 64 % 64, 0x80 + r % 64]

/-- The bytes of a Go string literal (Go source is UTF-8). -/
def lit (s : String) : GoString :=
  s.data.flatMap (fun c => EncodeRune c.toNat)

/-- Go's `utf8.first` table together with `utf8.acceptRanges`, for the lead
bytes of multi-byte sequences: the sequence length and the accepted range of
the second byte. `none` for ASCII and for invalid lead bytes. -/
def firstInfo (s0 : Nat) : Option (Nat × Nat × Nat) :=
  if 0xC2 ≤ s0 ∧ s0 ≤ 0xDF then some (2, 0x80, 0xBF)
  else if s0 = 0xE0 then some (3, 0xA0, 0xBF)
  else if 0xE1 ≤ s0 ∧ s0 ≤ 0xEC then some (3, 0x80, 0xBF)
  else if s0 = 0xED then some (3, 0x80, 0x9F)
  else if s0 = 0xEE ∨ s0 = 0xEF then some (3, 0x80, 0xBF)
  else if s0 = 0xF0 then some (4, 0x90, 0xBF)
  else if 0xF1 ≤ s0 ∧ s0 ≤ 0xF3 then some (4, 0x80, 0xBF)
  else if s0 = 0xF4 then some (4, 0x80, 0x8F)
  else none

/-- Go's `utf8.DecodeRuneInString`: the first rune of `s` and its width in
bytes; `(RuneError, 0)` for the empty string, `(RuneError, 1)` for an invalid
encoding. -/
def DecodeRuneInString (s : GoString) : Nat × Nat :=
  match s with
  | [] => (RuneError, 0)
  | s0 :: _ =>
    if s0 < RuneSelf then (s0, 1)
    else
      match firstInfo s0 with
      | none => (RuneError, 1)
      | some (sz, lo, hi) =>
        if s.length < sz then (RuneError, 1)
        else
          let s1 := s.getD 1 0
          if s1 < lo ∨ hi < s1 then (RuneError, 1)
          else if sz ≤ 2 then (s0 % 32 * 64 + s1 % 64, 2)
          else
            let s2 := s.getD 2 0
            if s2 < 0x80 ∨ 0xBF < s2 then (RuneError, 1)
            else if sz ≤ 3 then (s0 % 16 * 4096 + s1 % 64 * 64 + s2 % 64, 3)
            else
              let s3 := s.getD 3 0
              if s3 < 0x80 ∨ 0xBF < s3 then (RuneError, 1)
              else (s0 % 8 * 262144 + s1 % 64 * 4096 + s2 % 64 * 64 + s3 % 64, 4)

/-- Go's `utf8.RuneStart`: the byte is not a continuation byte. -/
def RuneStart (b : Nat) : Bool := decide (b / 64 % 4 ≠ 2)

/-- Go's `utf8.DecodeLastRuneInString`: the last rune of `s` and its width. -/
def DecodeLastRuneInString (s : GoString) : Nat × Nat :=
  let stop := s.length
  if stop = 0 then (RuneError, 0)
  else
    let r := s.getD (stop - 1) 0
    if r < RuneSelf then (r, 1)
    else
      let lim := stop - UTFMax
      -- `for start--; start >= lim; start--`: the candidates stop-2, ..., lim
      let candidates := (List.range (stop - 1 - lim)).map (fun k => stop - 2 - k)
      let start :=
        match candidates.find? (fun p => RuneStart (s.getD p 0)) with
        | some p => p
        | none => lim - 1
      let d := DecodeRuneInString (s.drop start)
      if start + d.2 ≠ stop then (RuneError, 1) else d

/-- Go's `unicode.IsSpace`. -/
def IsSpace (r : Nat) : Bool :=
  if r ≤ 0xFF then
    decide (r = 0x09 ∨ r = 0x0A ∨ r = 0x0B ∨ r = 0x0C ∨ r = 0x0D ∨ r = 0x20 ∨ r = 0x85 ∨ r = 0xA0)
  else
    decide (r = 0x1680 ∨ (0x2000 ≤ r ∧ r ≤ 0x200A) ∨ r = 0x2028 ∨ r = 0x2029 ∨ r = 0x202F
      ∨ r = 0x205F ∨ r = 0x3000)

/-- Go's `strings.asciiSpace` table. -/
def asciiSpace (c : Nat) : Bool :=
  decide (c = 0x09 ∨ c = 0x0A ∨ c = 0x0B ∨ c = 0x0C ∨ c = 0x0D ∨ c = 0x20)

/-- Go's `strings.indexFunc`: the byte index of the first rune `r` with
`f r = truth`; `none` stands for `-1`. The first argument bounds the number of
runes and `off` is the index of `s` in the whole string. -/
def indexFunc (f : Nat → Bool) (truth : Bool) : Nat → Nat → GoString → Option Nat
  | 0, _, _ => none
  | fuel + 1, off, s =>
    if s.length = 0 then none
    else
      let d := DecodeRuneInString s
      if f d.1 == truth then some off
      else indexFunc f truth fuel (off + d.2) (s.drop d.2)

/-- Go's `strings.TrimLeftFunc`. -/
def TrimLeftFunc (s : GoString) (f : Nat → Bool) : GoString :=
  match indexFunc f false s.length 0 s with
  | none => []
  | some i => s.drop i

/-- Go's `strings.lastIndexFunc`: the byte index of the last rune `r` with
`f r = truth`; `none` stands for `-1`. The first argument bounds the number of
runes. -/
def lastIndexFunc (f : Nat → Bool) (truth : Bool) : Nat → GoString → Option Nat
  | 0, _ => none
  | fuel + 1, s =>
    if s.length = 0 then none
    else
      let d := DecodeLastRuneInString s
      let i := s.length - d.2
      if f d.1 == truth then some i
      else lastIndexFunc f truth fuel (s.take i)

/-- Go's `strings.TrimRightFunc`. -/
def TrimRightFunc (s : GoString) (f : Nat → Bool) : GoString :=
  match lastIndexFunc f false s.length s with
  | some i =>
    if s.getD i 0 ≥ RuneSelf then s.take (i + (DecodeRuneInString (s.drop i)).2)
    else s.take (i + 1)
  | none => []

/-- Go's `strings.TrimFunc`. -/
def TrimFunc (s : GoString) (f : Nat → Bool) : GoString :=
  TrimRightFunc (TrimLeftFunc s f) f

/-- The second loop of Go's `strings.TrimSpace`, on the reversed remainder
`s[start:]`: drop trailing ASCII spaces, and hand over to `TrimRightFunc` at
the first non-ASCII byte. -/
def trimSpaceStop : GoString → GoString
  | [] => []
  | c :: cs =>
    if c ≥ RuneSelf then TrimRightFunc (c :: cs).reverse IsSpace
    else if asciiSpace c then trimSpaceStop cs
    else (c :: cs).reverse

/-- Go's `strings.TrimSpace`: drop leading ASCII spaces, and hand over to
`TrimFunc` at the first non-ASCII byte; then trim the end. -/
def TrimSpace : GoString → GoString
  | [] => []
  | c :: cs =>
    if c ≥ RuneSelf then TrimFunc (c :: cs) IsSpace
    else if asciiSpace c then TrimSpace cs
    else trimSpaceStop (c :: cs).reverse

/-- Go's `strings.Split(s, sep)` for a separator of one byte, the only way the
program calls it: the substrings between the separators, `[s]` when `s` has no
separator (so `[""]` for the empty string). -/
def Split (s : GoString) (sep : Nat) : List GoString :=
  match s with
  | [] => [[]]
  | c :: cs =>
    if c = sep then [] :: Split cs sep
    else
      match Split cs sep with
      | [] => [[c]]
      | f :: fs => (c :: f) :: fs

/-- The byte `':'`, the field separator. -/
def colon : Nat := 58

/-- The byte `'\n'`, the record separator. -/
def newline : Nat := 10

/-- Go's `unicode.ToUpper`: ASCII is handled in place, every other rune goes
through the Unicode case table (`unicode.To(unicode.UpperCase, r)`), which is
the parameter `caseTable`. -/
def unicodeToUpper (caseTable : Nat → Nat) (r : Nat) : Nat :=
  if r ≤ 0x7F then
    if 97 ≤ r ∧ r ≤ 122 then r - 32 else r
  else caseTable r

/-- Go's `strings.Map` for a mapping that never returns a negative rune: every
rune of `s` (an invalid byte decodes to `RuneError` of width 1) is replaced by
the encoding of its image. The first argument bounds the number of runes. -/
def Map (mapping : Nat → Nat) : Nat → GoString → GoString
  | 0, _ => []
  | fuel + 1, s =>
    if s.length = 0 then []
    else
      let d := DecodeRuneInString s
      EncodeRune (mapping d.1) ++ Map mapping fuel (s.drop d.2)

/-- Go's `strings.ToUpper`: a byte-wise fast path for ASCII-only strings,
`strings.Map(unicode.ToUpper, s)` otherwise. -/
def ToUpper (caseTable : Nat → Nat) (s : GoString) : GoString :=
  let isASCII := s.all (fun c => decide (c < RuneSelf))
  let hasLower := s.any (fun c => decide (97 ≤ c ∧ c ≤ 122))
  if isASCII then
    if !hasLower then s
    else s.map (fun c => if 97 ≤ c ∧ c ≤ 122 then c - 32 else c)
  else Map (unicodeToUpper caseTable) s.length s

/-! ## lipgloss -/

/-- The settings of a `lipgloss.Style` that the program uses. -/
structure Style where
  foreground : Option GoString
  bold : Bool
  underline : Bool
  marginBottom : Nat
deriving DecidableEq, Repr

/-- The `lipgloss.Position` constants. -/
inductive Position where
  | Left
  | Center
  | Right
deriving DecidableEq, Repr

/-- The two `lipgloss` functions the program calls. -/
structure Lipgloss where
  Render : Style → GoString → GoString
  JoinHorizontal : Position → List GoString → GoString

/-- The library with styling erased: `Render` returns the text unchanged and
`JoinHorizontal` puts the blocks side by side. -/
def Lipgloss.plain : Lipgloss where
  Render := fun _ s => s
  JoinHorizontal := fun _ strs => strs.flatten

def activeColor : GoString := lit "10"
def inactiveColor : GoString := lit "8"
def accentColor : GoString := lit "12"
def warningColor : GoString := lit "11"

def activeSessionStyle : Style := ⟨some activeColor, true, false, 0⟩
def inactiveSessionStyle : Style := ⟨some inactiveColor, false, false, 0⟩
def sessionNameStyle : Style := ⟨some (lit "15"), true, false, 0⟩
def windowCountStyle : Style := ⟨some warningColor, true, false, 0⟩
def headerStyle : Style := ⟨some accentColor, true, true, 1⟩

/-! ## The process and its environment -/

/-- What `cmd.Output()` returns: the bytes of standard output and whether the
error is non-nil. Both can be present. -/
structure QueryResult where
  output : GoString
  err : Bool
deriving DecidableEq, Repr

/-- Everything outside the program: the styling library, the Unicode case
table, and the subprocess runner (`exec.Command(name, args...).Output()`). -/
structure Env where
  lipgloss : Lipgloss
  caseTable : Nat → Nat
  run : GoString → List GoString → QueryResult

/-- The observable run of the process so far: the writes to standard output in
order (one per printing call), the subprocesses started in order (each as its
full argument vector), and the exit status once the process has terminated
early (`os.Exit`, or a runtime panic, which exits with status 2). -/
structure Proc where
  stdout : List GoString
  execs : List (List GoString)
  exit : Option Nat
deriving DecidableEq, Repr

/-- The process at start-up. -/
def Proc.start : Proc := ⟨[], [], none⟩

/-- Go's `fmt.Println(a)` with one string argument. -/
def Proc.Println (p : Proc) (a : GoString) : Proc :=
  { p with stdout := p.stdout ++ [a ++ [newline]] }

/-- Go's `fmt.Printf` once the format has been expanded to `text`. -/
def Proc.Printf (p : Proc) (text : GoString) : Proc :=
  { p with stdout := p.stdout ++ [text] }

/-- Go's `os.Exit(code)`. -/
def Proc.Exit (p : Proc) (code : Nat) : Proc :=
  { p with exit := some code }

/-- A runtime panic (index out of range): the Go runtime exits with status 2. -/
def Proc.panic (p : Proc) : Proc :=
  { p with exit := some 2 }

/-- Go's `exec.Command(name, args...).Output()`. -/
def Proc.Output (p : Proc) (env : Env) (name : GoString) (args : List GoString) :
    Proc × QueryResult :=
  ({ p with execs := p.execs ++ [name :: args] }, env.run name args)

/-- The exit status of the process: 0 when `main` returns. -/
def Proc.exitStatus (p : Proc) : Nat := p.exit.getD 0

/-- All bytes written to standard output. -/
def Proc.bytes (p : Proc) : GoString := p.stdout.flatten

/-! ## `styleSessions` -/

/-- The arguments of the session query. -/
def sessionsArgs : List GoString :=
  [lit "list-sessions", lit "-F",
   lit "#\x7bsession_name\x7d:#\x7bsession_attached\x7d:#\x7bsession_windows\x7d"]

/-- The footer of the session list. -/
def sessionsFooter : GoString :=
  lit "Enter: switch • Ctrl+d: kill • Ctrl+r: rename • Ctrl+n: new"

/-- Lines 91-111 of `main.go`: the display line of one session. -/
def sessionLine (lg : Lipgloss) (name : GoString) (attached : Bool) (windows : GoString) :
    GoString :=
  let indicator := if attached then lit "●" else lit "○"
  let style := if attached then activeSessionStyle else inactiveSessionStyle
  let sessionDisplay := indicator ++ lit " " ++ lg.Render sessionNameStyle name
  let windowInfo := lg.Render windowCountStyle (lit "(" ++ windows ++ lit " windows)")
  lg.JoinHorizontal Position.Left [lg.Render style sessionDisplay, lit " ", windowInfo]

/-- Lines 77-114 of `main.go`: the loop over the lines of the session listing.
An index out of range panics. -/
def sessionsLoop (lg : Lipgloss) : List GoString → Proc → Proc
  | [], p => p
  | session :: rest, p =>
    if session = lit "" then sessionsLoop lg rest p
    else
      let parts := Split session colon
      if parts.length < 3 then sessionsLoop lg rest p
      else
        match parts[0]?, parts[1]?, parts[2]? with
        | some name, some flag, some windows =>
          let attached := decide (flag = lit "1")
          sessionsLoop lg rest (p.Println (sessionLine lg name attached windows))
        | _, _, _ => p.panic

/-- The function `styleSessions` of `main.go`. -/
def styleSessions (env : Env) (p : Proc) : Proc :=
  let (p, res) := p.Output env (lit "tmux") sessionsArgs
  if res.err then p.Println (lit "No tmux sessions found")
  else
    let sessions := Split (TrimSpace res.output) newline
    let header := env.lipgloss.Render headerStyle (lit "TMUX SESSIONS")
    let p := p.Println header
    let p := sessionsLoop env.lipgloss sessions p
    if p.exit.isSome then p
    else
      let p := p.Println (lit "")
      let footer := env.lipgloss.Render inactiveSessionStyle sessionsFooter
      p.Println footer

/-! ## `styleSessionInfo` -/

/-- The arguments of the window query for a session. -/
def windowsArgs (sessionName : GoString) : List GoString :=
  [lit "list-windows", lit "-t", sessionName, lit "-F",
   lit "#\x7bwindow_index\x7d:#\x7bwindow_name\x7d:#\x7b?window_active,1,0\x7d:#\x7bwindow_panes\x7d"]

/-- Lines 148-162 of `main.go`: the display line of one window. -/
def windowLine (lg : Lipgloss) (index windowName : GoString) (isActive : Bool)
    (panes : GoString) : GoString :=
  let indicator := if isActive then lit "▶" else lit "•"
  let style := if isActive then activeSessionStyle else inactiveSessionStyle
  let windowDisplay :=
    indicator ++ lit " " ++ index ++ lit ": " ++ windowName ++ lit " (" ++ panes ++ lit " panes)"
  lg.Render style windowDisplay

/-- Lines 133-163 of `main.go`: the loop over the lines of the window listing.
An index out of range panics. -/
def windowsLoop (lg : Lipgloss) : List GoString → Proc → Proc
  | [], p => p
  | window :: rest, p =>
    if window = lit "" then windowsLoop lg rest p
    else
      let parts := Split window colon
      if parts.length < 4 then windowsLoop lg rest p
      else
        match parts[0]?, parts[1]?, parts[2]?, parts[3]? with
        | some index, some windowName, some flag, some panes =>
          let isActive := decide (flag = lit "1")
          windowsLoop lg rest (p.Println (windowLine lg index windowName isActive panes))
        | _, _, _, _ => p.panic

/-- The function `styleSessionInfo` of `main.go`. -/
def styleSessionInfo (env : Env) (sessionName : GoString) (p : Proc) : Proc :=
  let (p, res) := p.Output env (lit "tmux") (windowsArgs sessionName)
  if res.err then p.Printf (lit "Session \x27" ++ sessionName ++ lit "\x27 not found\n")
  else
    let header :=
      env.lipgloss.Render headerStyle (lit "SESSION: " ++ ToUpper env.caseTable sessionName)
    let p := p.Println header
    let windows := Split (TrimSpace res.output) newline
    let p := windowsLoop env.lipgloss windows p
    if p.exit.isSome then p
    else p.Println (lit "")

/-! ## `main` -/

/-- The function `main` of `main.go`, on the argument vector `os.Args`
(program name first). -/
def main (env : Env) (osArgs : List GoString) : Proc :=
  let p := Proc.start
  if osArgs.length < 2 then
    (p.Println (lit "Usage: tmux-styler <command> [args...]")).Exit 1
  else
    match osArgs[1]? with
    | none => p.panic
    | some command =>
      if command = lit "sessions" then styleSessions env p
      else if command = lit "session-info" then
        if osArgs.length < 3 then
          (p.Println (lit "Usage: tmux-styler session-info <session-name>")).Exit 1
        else
          match osArgs[2]? with
          | none => p.panic
          | some sessionName => styleSessionInfo env sessionName p
      else (p.Printf (lit "Unknown command: " ++ command ++ lit "\n")).Exit 1

/-! ## The record reading of the listing (the specification side) -/

/-- Field `i` of a line: the `i`-th part of its split on `':'`. -/
def field (line : GoString) (i : Nat) : GoString := (Split line colon).getD i []

/-- The lines of the whitespace-trimmed output that split on `':'` into at
least `k` fields, in the order of the output. -/
def recordLines (k : Nat) (output : GoString) : List GoString :=
  (Split (TrimSpace output) newline).filter (fun l => decide (k ≤ (Split l colon).length))

/-- A session record of the data model. -/
structure SessionRecord where
  name : GoString
  attached : Bool
  windowCount : GoString
deriving DecidableEq, Repr

/-- A window record of the data model. -/
structure WindowRecord where
  index : GoString
  name : GoString
  active : Bool
  paneCount : GoString
deriving DecidableEq, Repr

/-- The session record read off the first three fields of a line. -/
def sessionRecordOf (line : GoString) : SessionRecord :=
  ⟨field line 0, decide (field line 1 = lit "1"), field line 2⟩

/-- The window record read off the first four fields of a line. -/
def windowRecordOf (line : GoString) : WindowRecord :=
  ⟨field line 0, field line 1, decide (field line 2 = lit "1"), field line 3⟩

/-- The write that `fmt.Println` makes for the display line of a session record. -/
def SessionRecord.printed (lg : Lipgloss) (r : SessionRecord) : GoString :=
  sessionLine lg r.name r.attached r.windowCount ++ [newline]

/-- The write that `fmt.Println` makes for the display line of a window record. -/
def WindowRecord.printed (lg : Lipgloss) (r : WindowRecord) : GoString :=
  windowLine lg r.index r.name r.active r.paneCount ++ [newline]

/-- The texts `elems` put one after the other with the byte `sep` between
neighbours (Go's `strings.Join` for a one-byte separator). -/
def Join (sep : Nat) : List GoString → GoString
  | [] => []
  | [a] => a
  | a :: b :: rest => a ++ sep :: Join sep (b :: rest)

/-- A session as tmux lists it: name, attached flag and window count, as text. -/
structure SessionRow where
  name : GoString
  flag : GoString
  count : GoString
deriving DecidableEq, Repr

/-- A window as tmux lists it: index, name, active flag and pane count, as text. -/
structure WindowRow where
  index : GoString
  name : GoString
  flag : GoString
  paneCount : GoString
deriving DecidableEq, Repr

/-- The fields of a session row, in the order of the query format. -/
def SessionRow.fields (r : SessionRow) : List GoString := [r.name, r.flag, r.count]

/-- The fields of a window row, in the order of the query format. -/
def WindowRow.fields (r : WindowRow) : List GoString := [r.index, r.name, r.flag, r.paneCount]

/-- The listing of sessions: one `name:flag:count` line per row, the lines
joined by newlines. -/
def serializeSessions (rows : List SessionRow) : GoString :=
  Join newline (rows.map (fun r => Join colon r.fields))

/-- The listing of windows: one `index:name:flag:paneCount` line per row, the
lines joined by newlines. -/
def serializeWindows (rows : List WindowRow) : GoString :=
  Join newline (rows.map (fun r => Join colon r.fields))

/-! ## Environments of the worked instances -/

/-- A failing environment used in the worked instances: plain styling, and a
query that returns an error together with some bytes. -/
def failingEnv : Env := ⟨Lipgloss.plain, id, fun _ _ => ⟨lit "no server running", true⟩⟩

/-- An environment whose every query succeeds with the given output, with
plain styling. -/
def plainEnv (output : GoString) : Env := ⟨Lipgloss.plain, id, fun _ _ => ⟨output, false⟩⟩

/-- An environment with plain styling whose session query succeeds with one
output and whose window queries succeed with another. -/
def twoListings (sessionsOutput windowsOutput : GoString) : Env :=
  ⟨Lipgloss.plain, id,
   fun _ args => if args = sessionsArgs then ⟨sessionsOutput, false⟩ else ⟨windowsOutput, false⟩⟩

/-! ## Basic facts -/

theorem lit_empty : lit "" = [] := rfl

theorem Split_ne_nil (s : GoString) (sep : Nat) : Split s sep ≠ [] := by
  cases s with
  | nil => simp [Split]
  | cons c cs =>
    unfold Split
    split
    · simp
    · split <;> simp

theorem Split_nil (sep : Nat) : Split [] sep = [[]] := rfl

theorem getElem?_eq_getD {α : Type} (l : List α) (i : Nat) (d : α) (h : i < l.length) :
    l[i]? = some (l.getD i d) := by
  simp [List.getD, List.getElem?_eq_getElem h]

/-- The session loop never panics: it appends one write per line with at least
three fields and touches nothing else. -/
theorem sessionsLoop_eq (lg : Lipgloss) (lines : List GoString) (p : Proc) :
    sessionsLoop lg lines p =
      ⟨p.stdout ++ ((lines.filter (fun l => decide (3 ≤ (Split l colon).length))).map
        (fun l => (sessionRecordOf l).printed lg)), p.execs, p.exit⟩ := by
  induction lines generalizing p with
  | nil => simp [sessionsLoop]
  | cons l rest ih =>
    unfold sessionsLoop
    by_cases h0 : l = lit ""
    · subst h0
      simp [ih, lit_empty, Split_nil]
    · by_cases h3 : (Split l colon).length < 3
      · have h3n : ¬ 3 ≤ (Split l colon).length := by omega
        simp [h0, h3, ih, h3n]
      · have e0 := getElem?_eq_getD (Split l colon) 0 [] (by omega)
        have e1 := getElem?_eq_getD (Split l colon) 1 [] (by omega)
        have e2 := getElem?_eq_getD (Split l colon) 2 [] (by omega)
        have h3y : 3 ≤ (Split l colon).length := by omega
        simp only [h0, h3, if_false, e0, e1, e2, ih]
        simp [Proc.Println, List.filter_cons, h3y, SessionRecord.printed, sessionRecordOf, field]

/-- The window loop never panics: it appends one write per line with at least
four fields and touches nothing else. -/
theorem windowsLoop_eq (lg : Lipgloss) (lines : List GoString) (p : Proc) :
    windowsLoop lg lines p =
      ⟨p.stdout ++ ((lines.filter (fun l => decide (4 ≤ (Split l colon).length))).map
        (fun l => (windowRecordOf l).printed lg)), p.execs, p.exit⟩ := by
  induction lines generalizing p with
  | nil => simp [windowsLoop]
  | cons l rest ih =>
    unfold windowsLoop
    by_cases h0 : l = lit ""
    · subst h0
      simp [ih, lit_empty, Split_nil]
    · by_cases h4 : (Split l colon).length < 4
      · have h4n : ¬ 4 ≤ (Split l colon).length := by omega
        simp [h0, h4, ih, h4n]
      · have e0 := getElem?_eq_getD (Split l colon) 0 [] (by omega)
        have e1 := getElem?_eq_getD (Split l colon) 1 [] (by omega)
        have e2 := getElem?_eq_getD (Split l colon) 2 [] (by omega)
        have e3 := getElem?_eq_getD (Split l colon) 3 [] (by omega)
        have h4y : 4 ≤ (Split l colon).length := by omega
        simp only [h0, h4, if_false, e0, e1, e2, e3, ih]
        simp [Proc.Println, List.filter_cons, h4y, WindowRecord.printed, windowRecordOf, field]

/-- What `styleSessions` does when the query fails. -/
theorem styleSessions_err (env : Env)
    (h : (env.run (lit "tmux") sessionsArgs).err = true) :
    styleSessions env Proc.start =
      ⟨[lit "No tmux sessions found" ++ [newline]], [lit "tmux" :: sessionsArgs], none⟩ := by
  simp [styleSessions, Proc.Output, h, Proc.Println, Proc.start]

/-- What `styleSessions` does when the query succeeds. -/
theorem styleSessions_ok (env : Env)
    (h : (env.run (lit "tmux") sessionsArgs).err = false) :
    styleSessions env Proc.start =
      ⟨[env.lipgloss.Render headerStyle (lit "TMUX SESSIONS") ++ [newline]]
        ++ (recordLines 3 (env.run (lit "tmux") sessionsArgs).output).map
            (fun l => (sessionRecordOf l).printed env.lipgloss)
        ++ [[newline], env.lipgloss.Render inactiveSessionStyle sessionsFooter ++ [newline]],
       [lit "tmux" :: sessionsArgs], none⟩ := by
  simp [styleSessions, Proc.Output, h, Proc.Println, Proc.start, sessionsLoop_eq, recordLines,
    lit_empty]

/-- What `styleSessionInfo` does when the query fails. -/
theorem styleSessionInfo_err (env : Env) (sessionName : GoString)
    (h : (env.run (lit "tmux") (windowsArgs sessionName)).err = true) :
    styleSessionInfo env sessionName Proc.start =
      ⟨[lit "Session \x27" ++ sessionName ++ lit "\x27 not found\n"],
       [lit "tmux" :: windowsArgs sessionName], none⟩ := by
  simp [styleSessionInfo, Proc.Output, h, Proc.Printf, Proc.start]

/-- What `styleSessionInfo` does when the query succeeds. -/
theorem styleSessionInfo_ok (env : Env) (sessionName : GoString)
    (h : (env.run (lit "tmux") (windowsArgs sessionName)).err = false) :
    styleSessionInfo env sessionName Proc.start =
      ⟨[env.lipgloss.Render headerStyle (lit "SESSION: " ++ ToUpper env.caseTable sessionName)
          ++ [newline]]
        ++ (recordLines 4 (env.run (lit "tmux") (windowsArgs sessionName)).output).map
            (fun l => (windowRecordOf l).printed env.lipgloss)
        ++ [[newline]],
       [lit "tmux" :: windowsArgs sessionName], none⟩ := by
  simp [styleSessionInfo, Proc.Output, h, Proc.Println, Proc.start, windowsLoop_eq, recordLines,
    lit_empty]

/-- Neither handler terminates the process early, whatever the query returns. -/
theorem styleSessions_exit (env : Env) : (styleSessions env Proc.start).exit = none := by
  cases h : (env.run (lit "tmux") sessionsArgs).err
  · rw [styleSessions_ok env h]
  · rw [styleSessions_err env h]

theorem styleSessionInfo_exit (env : Env) (sessionName : GoString) :
    (styleSessionInfo env sessionName Proc.start).exit = none := by
  cases h : (env.run (lit "tmux") (windowsArgs sessionName)).err
  · rw [styleSessionInfo_ok env sessionName h]
  · rw [styleSessionInfo_err env sessionName h]

theorem main_sessions (env : Env) (argv0 : GoString) (rest : List GoString) :
    main env (argv0 :: lit "sessions" :: rest) = styleSessions env Proc.start := by
  simp [main]

theorem sessionInfo_ne_sessions : lit "session-info" ≠ lit "sessions" := by decide

theorem main_sessionInfo (env : Env) (argv0 sessionName : GoString) (rest : List GoString) :
    main env (argv0 :: lit "session-info" :: sessionName :: rest) =
      styleSessionInfo env sessionName Proc.start := by
  simp [main, sessionInfo_ne_sessions]
  rw [if_neg (by omega), if_neg (by omega)]

theorem main_sessionInfo_missing (env : Env) (argv0 : GoString) :
    main env [argv0, lit "session-info"] =
      ⟨[lit "Usage: tmux-styler session-info <session-name>" ++ [newline]], [], some 1⟩ := by
  simp [main, sessionInfo_ne_sessions, Proc.Println, Proc.Exit, Proc.start]

theorem main_unknown (env : Env) (argv0 command : GoString) (rest : List GoString)
    (h1 : command ≠ lit "sessions") (h2 : command ≠ lit "session-info") :
    main env (argv0 :: command :: rest) =
      ⟨[lit "Unknown command: " ++ command ++ lit "\n"], [], some 1⟩ := by
  simp [main, h1, h2, Proc.Printf, Proc.Exit, Proc.start]

theorem main_no_command (env : Env) (osArgs : List GoString) (h : osArgs.length < 2) :
    main env osArgs =
      ⟨[lit "Usage: tmux-styler <command> [args...]" ++ [newline]], [], some 1⟩ := by
  simp [main, h, Proc.Println, Proc.Exit, Proc.start]

theorem styleSessionInfo_execs (env : Env) (sessionName : GoString) :
    (styleSessionInfo env sessionName Proc.start).execs
      = [lit "tmux" :: windowsArgs sessionName] := by
  cases h : (env.run (lit "tmux") (windowsArgs sessionName)).err
  · rw [styleSessionInfo_ok env sessionName h]
  · rw [styleSessionInfo_err env sessionName h]

theorem filter_short_eq_nil (k : Nat) (lines : List GoString)
    (h : ∀ l ∈ lines, (Split l colon).length < k) :
    lines.filter (fun l => decide (k ≤ (Split l colon).length)) = [] := by
  rw [List.filter_eq_nil_iff]
  intro l hl
  have := h l hl
  simp only [decide_eq_true_eq]
  omega

theorem filter_insert_short (k : Nat) (l1 l2 : List GoString) (bad : GoString)
    (h : (Split bad colon).length < k) :
    (l1 ++ bad :: l2).filter (fun l => decide (k ≤ (Split l colon).length))
      = (l1 ++ l2).filter (fun l => decide (k ≤ (Split l colon).length)) := by
  have hn : ¬ k ≤ (Split bad colon).length := by omega
  simp [List.filter_append, List.filter_cons, hn]

theorem field_eq_of_take (n : Nat) (w1 w2 : GoString) (i : Nat) (hi : i < n)
    (h : (Split w1 colon).take n = (Split w2 colon).take n) : field w1 i = field w2 i := by
  have e1 : ((Split w1 colon).take n)[i]? = (Split w1 colon)[i]? := by
    rw [List.getElem?_take, if_pos hi]
  have e2 : ((Split w2 colon).take n)[i]? = (Split w2 colon)[i]? := by
    rw [List.getElem?_take, if_pos hi]
  rw [h, e2] at e1
  simp only [field, List.getD_eq_getElem?_getD, e1]

theorem length_ge_of_take (n : Nat) (w1 w2 : GoString)
    (h : (Split w1 colon).take n = (Split w2 colon).take n) :
    decide (n ≤ (Split w1 colon).length) = decide (n ≤ (Split w2 colon).length) := by
  have hl := congrArg List.length h
  simp only [List.length_take] at hl
  by_cases h1 : n ≤ (Split w1 colon).length <;> by_cases h2 : n ≤ (Split w2 colon).length
    <;> simp [h1, h2] <;> omega

theorem field_getElem? (line : GoString) (k i : Nat) (hk : k ≤ (Split line colon).length)
    (hi : i < k) : (Split line colon)[i]? = some (field line i) :=
  getElem?_eq_getD (Split line colon) i [] (by omega)

theorem windowRecordOf_eq_of_take (w1 w2 : GoString)
    (h : (Split w1 colon).take 4 = (Split w2 colon).take 4) :
    windowRecordOf w1 = windowRecordOf w2 := by
  simp only [windowRecordOf, field_eq_of_take 4 w1 w2 0 (by omega) h,
    field_eq_of_take 4 w1 w2 1 (by omega) h, field_eq_of_take 4 w1 w2 2 (by omega) h,
    field_eq_of_take 4 w1 w2 3 (by omega) h]

theorem windows_printed_congr (lg : Lipgloss) (ws1 ws2 : List GoString)
    (h : List.Forall₂ (fun a b => (Split a colon).take 4 = (Split b colon).take 4) ws1 ws2) :
    (ws1.filter (fun l => decide (4 ≤ (Split l colon).length))).map
        (fun l => (windowRecordOf l).printed lg)
      = (ws2.filter (fun l => decide (4 ≤ (Split l colon).length))).map
        (fun l => (windowRecordOf l).printed lg) := by
  induction h with
  | nil => rfl
  | cons hab _ ih =>
    simp only [List.filter_cons, length_ge_of_take 4 _ _ hab]
    split
    · simp only [List.map_cons, ih, windowRecordOf_eq_of_take _ _ hab]
    · exact ih

theorem Split_of_not_mem (a : GoString) (sep : Nat) (h : sep ∉ a) : Split a sep = [a] := by
  induction a with
  | nil => rfl
  | cons c cs ih =>
    have hc : c ≠ sep := fun e => h (by simp [e])
    have hcs : sep ∉ cs := fun e => h (List.mem_cons_of_mem _ e)
    simp [Split, hc, ih hcs]

theorem Split_append_sep (a b : GoString) (sep : Nat) (h : sep ∉ a) :
    Split (a ++ sep :: b) sep = a :: Split b sep := by
  induction a with
  | nil => simp [Split]
  | cons c cs ih =>
    have hc : c ≠ sep := fun e => h (by simp [e])
    have hcs : sep ∉ cs := fun e => h (List.mem_cons_of_mem _ e)
    simp [Split, hc, ih hcs]

theorem Split_Join (sep : Nat) (parts : List GoString) (hne : parts ≠ [])
    (h : ∀ a ∈ parts, sep ∉ a) : Split (Join sep parts) sep = parts := by
  induction parts with
  | nil => exact absurd rfl hne
  | cons a rest ih =>
    cases rest with
    | nil => exact Split_of_not_mem a sep (h a (by simp))
    | cons b rest =>
      have ha : sep ∉ a := h a (by simp)
      have hrest : ∀ x ∈ b :: rest, sep ∉ x := fun x hx => h x (List.mem_cons_of_mem _ hx)
      rw [Join, Split_append_sep a _ sep ha, ih (by simp) hrest]

theorem not_mem_Join (c sep : Nat) (hc : c ≠ sep) (parts : List GoString)
    (h : ∀ a ∈ parts, c ∉ a) : c ∉ Join sep parts := by
  induction parts with
  | nil => simp [Join]
  | cons a rest ih =>
    cases rest with
    | nil => exact h a (by simp)
    | cons b rest =>
      have ha : c ∉ a := h a (by simp)
      have hrest : ∀ x ∈ b :: rest, c ∉ x := fun x hx => h x (List.mem_cons_of_mem _ hx)
      have := ih hrest
      simp only [Join, List.mem_append, List.mem_cons, not_or]
      exact ⟨ha, hc, this⟩

/-- The lines of a listing whose fields hold no separator are its rows, and
each line splits back into the fields of its row. -/
theorem lines_of_listing (rows : List (List GoString)) (hrows : ∀ r ∈ rows, r ≠ [])
    (h : ∀ r ∈ rows, ∀ f ∈ r, colon ∉ f ∧ newline ∉ f) :
    (rows = [] ∧ Split (Join newline (rows.map (Join colon))) newline = [[]])
      ∨ (Split (Join newline (rows.map (Join colon))) newline = rows.map (Join colon)) := by
  cases rows with
  | nil => exact Or.inl ⟨rfl, rfl⟩
  | cons r rest =>
    right
    apply Split_Join newline _ (by simp)
    intro a ha
    rw [List.mem_map] at ha
    obtain ⟨r1, hr1, rfl⟩ := ha
    exact not_mem_Join newline colon (by decide) r1 (fun f hf => (h r1 hr1 f hf).2)

theorem recordLines_of_listing (k : Nat) (hk : 1 < k) (rows : List (List GoString))
    (hlen : ∀ r ∈ rows, r.length = k)
    (h : ∀ r ∈ rows, ∀ f ∈ r, colon ∉ f ∧ newline ∉ f)
    (htrim : TrimSpace (Join newline (rows.map (Join colon)))
      = Join newline (rows.map (Join colon))) :
    recordLines k (Join newline (rows.map (Join colon))) = rows.map (Join colon) := by
  have hne : ∀ r ∈ rows, r ≠ [] := by
    intro r hr e
    have := hlen r hr
    rw [e] at this
    simp at this
    omega
  have hsplit : ∀ r ∈ rows, Split (Join colon r) colon = r :=
    fun r hr => Split_Join colon r (hne r hr) (fun f hf => (h r hr f hf).1)
  rw [recordLines, htrim]
  rcases lines_of_listing rows hne h with ⟨he, hs⟩ | hs
  · subst he
    rw [hs]
    have : ¬ k ≤ 1 := by omega
    simp [Split_nil, this]
  · rw [hs, List.filter_eq_self]
    intro l hl
    rw [List.mem_map] at hl
    obtain ⟨r, hr, rfl⟩ := hl
    simp [hsplit r hr, hlen r hr]

theorem sessionRecordOf_row (r : SessionRow) (h : ∀ f ∈ r.fields, colon ∉ f) :
    sessionRecordOf (Join colon r.fields) = ⟨r.name, decide (r.flag = lit "1"), r.count⟩ := by
  have hs : Split (Join colon r.fields) colon = r.fields :=
    Split_Join colon r.fields (by simp [SessionRow.fields]) h
  simp only [sessionRecordOf, field, hs]
  simp [SessionRow.fields]

theorem windowRecordOf_row (r : WindowRow) (h : ∀ f ∈ r.fields, colon ∉ f) :
    windowRecordOf (Join colon r.fields)
      = ⟨r.index, r.name, decide (r.flag = lit "1"), r.paneCount⟩ := by
  have hs : Split (Join colon r.fields) colon = r.fields :=
    Split_Join colon r.fields (by simp [WindowRow.fields]) h
  simp only [windowRecordOf, field, hs]
  simp [WindowRow.fields]

/-- The plain text of a session line. -/
theorem sessionRecord_printed_plain (name : GoString) (attached : Bool) (count : GoString) :
    (SessionRecord.mk name attached count).printed Lipgloss.plain
      = (if attached then lit "●" else lit "○") ++ lit " " ++ name ++ lit " (" ++ count
          ++ lit " windows)\n" := by
  have e1 : lit " (" = lit " " ++ lit "(" := by decide
  have e2 : lit " windows)\n" = lit " windows)" ++ [newline] := by decide
  simp [SessionRecord.printed, sessionLine, Lipgloss.plain, e1, e2]

/-- The plain text of a window line. -/
theorem windowRecord_printed_plain (index name : GoString) (active : Bool)
    (paneCount : GoString) :
    (WindowRecord.mk index name active paneCount).printed Lipgloss.plain
      = (if active then lit "▶" else lit "•") ++ lit " " ++ index ++ lit ": " ++ name
          ++ lit " (" ++ paneCount ++ lit " panes)\n" := by
  have e2 : lit " panes)\n" = lit " panes)" ++ [newline] := by decide
  simp [WindowRecord.printed, windowLine, Lipgloss.plain, e2]

/-! ## The rune loops have enough fuel -/

theorem DecodeRuneInString_width_pos (s : GoString) (h : s ≠ []) :
    1 ≤ (DecodeRuneInString s).2 := by
  cases s with
  | nil => exact absurd rfl h
  | cons s0 rest =>
    unfold DecodeRuneInString
    repeat' split
    all_goals (try simp_all)
    all_goals (split_ifs <;> simp)

theorem DecodeLastRuneInString_width_pos (s : GoString) (h : s ≠ []) :
    1 ≤ (DecodeLastRuneInString s).2 := by
  have hlen : 0 < s.length := List.length_pos.mpr h
  unfold DecodeLastRuneInString
  simp only
  split
  · omega
  · split
    · simp
    · split
      · simp
      · rename_i hstart
        simp only [ne_eq, Decidable.not_not] at hstart
        have hlt : ∀ start, start < s.length →
            start + (DecodeRuneInString (List.drop start s)).2 = s.length →
            1 ≤ (DecodeRuneInString (List.drop start s)).2 := by
          intro start h1 h2
          omega
        split at hstart
        · rename_i p hp
          have hmem := List.mem_of_find?_eq_some hp
          rw [List.mem_map] at hmem
          obtain ⟨k, hk, rfl⟩ := hmem
          rw [List.mem_range] at hk
          have hp1 : s.length - 2 - k < s.length := by
            clear hk hstart hp hlt
            omega
          exact hlt _ hp1 hstart
        · have hp1 : s.length - UTFMax - 1 < s.length := by
            clear hstart hlt
            omega
          exact hlt _ hp1 hstart

/-- The bound `len(s)` on the number of runes is enough for `indexFunc`: more
fuel gives the same answer. -/
theorem indexFunc_fuel (f : Nat → Bool) (truth : Bool) (fuel off : Nat) (s : GoString)
    (h : s.length ≤ fuel) :
    indexFunc f truth fuel off s = indexFunc f truth s.length off s := by
  suffices H : ∀ (n m off : Nat) (s : GoString), s.length ≤ n → s.length ≤ m →
      indexFunc f truth n off s = indexFunc f truth m off s from H fuel s.length off s h le_rfl
  intro n
  induction n with
  | zero =>
    intro m off s hn hm
    have hs : s = [] := List.eq_nil_of_length_eq_zero (by omega)
    subst hs
    cases m <;> simp [indexFunc]
  | succ n ih =>
    intro m off s hn hm
    cases s with
    | nil => cases m <;> simp [indexFunc]
    | cons c cs =>
      cases m with
      | zero => simp at hm
      | succ m =>
        have hw := DecodeRuneInString_width_pos (c :: cs) (by simp)
        have hd : ((c :: cs).drop (DecodeRuneInString (c :: cs)).2).length ≤ cs.length := by
          simp only [List.length_drop, List.length_cons]
          omega
        simp only [List.length_cons] at hn hm
        simp only [indexFunc]
        rw [ih m _ _ (by omega) (by omega)]

/-- The bound `len(s)` on the number of runes is enough for `lastIndexFunc`. -/
theorem lastIndexFunc_fuel (f : Nat → Bool) (truth : Bool) (fuel : Nat) (s : GoString)
    (h : s.length ≤ fuel) :
    lastIndexFunc f truth fuel s = lastIndexFunc f truth s.length s := by
  suffices H : ∀ (n m : Nat) (s : GoString), s.length ≤ n → s.length ≤ m →
      lastIndexFunc f truth n s = lastIndexFunc f truth m s from H fuel s.length s h le_rfl
  intro n
  induction n with
  | zero =>
    intro m s hn hm
    have hs : s = [] := List.eq_nil_of_length_eq_zero (by omega)
    subst hs
    cases m <;> simp [lastIndexFunc]
  | succ n ih =>
    intro m s hn hm
    cases s with
    | nil => cases m <;> simp [lastIndexFunc]
    | cons c cs =>
      cases m with
      | zero => simp at hm
      | succ m =>
        have hw := DecodeLastRuneInString_width_pos (c :: cs) (by simp)
        have hd : ((c :: cs).take ((c :: cs).length - (DecodeLastRuneInString (c :: cs)).2)).length
            ≤ cs.length := by
          simp only [List.length_take, List.length_cons]
          omega
        simp only [List.length_cons] at hn hm
        simp only [lastIndexFunc]
        rw [ih m _ (by omega) (by omega)]

/-- The bound `len(s)` on the number of runes is enough for `Map`. -/
theorem Map_fuel (mapping : Nat → Nat) (fuel : Nat) (s : GoString) (h : s.length ≤ fuel) :
    Map mapping fuel s = Map mapping s.length s := by
  suffices H : ∀ (n m : Nat) (s : GoString), s.length ≤ n → s.length ≤ m →
      Map mapping n s = Map mapping m s from H fuel s.length s h le_rfl
  intro n
  induction n with
  | zero =>
    intro m s hn hm
    have hs : s = [] := List.eq_nil_of_length_eq_zero (by omega)
    subst hs
    cases m <;> simp [Map]
  | succ n ih =>
    intro m s hn hm
    cases s with
    | nil => cases m <;> simp [Map]
    | cons c cs =>
      cases m with
      | zero => simp at hm
      | succ m =>
        have hw := DecodeRuneInString_width_pos (c :: cs) (by simp)
        have hd : ((c :: cs).drop (DecodeRuneInString (c :: cs)).2).length ≤ cs.length := by
          simp only [List.length_drop, List.length_cons]
          omega
        simp only [List.length_cons] at hn hm
        simp only [Map]
        rw [ih m _ (by omega) (by omega)]

/-- A text that begins and ends with ASCII bytes that are not white space (or
is empty) has no leading or trailing white space: `TrimSpace` returns it
unchanged. -/
theorem TrimSpace_eq_self (s : GoString)
    (hfirst : ∀ c ∈ s.head?, c < RuneSelf ∧ asciiSpace c = false)
    (hlast : ∀ c ∈ s.getLast?, c < RuneSelf ∧ asciiSpace c = false) : TrimSpace s = s := by
  cases s with
  | nil => rfl
  | cons c cs =>
    have h1 := hfirst c (by simp)
    have hc : ¬ c ≥ RuneSelf := by omega
    rw [TrimSpace, if_neg hc]
    simp only [h1.2, Bool.false_eq_true, if_false]
    have hrev : (c :: cs).reverse ≠ [] := by simp
    obtain ⟨d, ds, hds⟩ := List.exists_cons_of_ne_nil hrev
    have hd : (c :: cs).getLast? = some d := by
      rw [← List.head?_reverse, hds]
      rfl
    have h2 := hlast d (by simp [hd])
    have hdn : ¬ d ≥ RuneSelf := by omega
    rw [hds, trimSpaceStop, if_neg hdn]
    simp only [h2.2, Bool.false_eq_true, if_false]
    rw [← hds, List.reverse_reverse]

/-! ## The claims -/

/-- C1: on a successful query, the writes of a handler between the header and
the trailer are, in order, one per line of the whitespace-trimmed output that
splits on ':' into at least k fields (k = 3 for sessions, k = 4 for windows),
and the record formatted for such a line is made of its first k fields
(sessions: name = field 0, attached = (field 1 = "1"), windowCount = field 2;
windows: index = field 0, name = field 1, active = (field 2 = "1"),
paneCount = field 3), each of which is the corresponding part of the split. -/
theorem C1_records_are_the_long_lines (envS envW : Env) (sessionName : GoString)
    (hs : (envS.run (lit "tmux") sessionsArgs).err = false)
    (hw : (envW.run (lit "tmux") (windowsArgs sessionName)).err = false) :
    (styleSessions envS Proc.start).stdout
        = [envS.lipgloss.Render headerStyle (lit "TMUX SESSIONS") ++ [newline]]
          ++ ((Split (TrimSpace (envS.run (lit "tmux") sessionsArgs).output) newline).filter
                (fun l => decide (3 ≤ (Split l colon).length))).map
              (fun l => (SessionRecord.mk (field l 0) (decide (field l 1 = lit "1"))
                (field l 2)).printed envS.lipgloss)
          ++ [[newline], envS.lipgloss.Render inactiveSessionStyle sessionsFooter ++ [newline]]
      ∧ (styleSessionInfo envW sessionName Proc.start).stdout
        = [envW.lipgloss.Render headerStyle
              (lit "SESSION: " ++ ToUpper envW.caseTable sessionName) ++ [newline]]
          ++ ((Split (TrimSpace (envW.run (lit "tmux") (windowsArgs sessionName)).output)
                newline).filter (fun l => decide (4 ≤ (Split l colon).length))).map
              (fun l => (WindowRecord.mk (field l 0) (field l 1) (decide (field l 2 = lit "1"))
                (field l 3)).printed envW.lipgloss)
          ++ [[newline]]
      ∧ (∀ (l : GoString) (k i : Nat), k ≤ (Split l colon).length → i < k →
          (Split l colon)[i]? = some (field l i)) := by
  refine ⟨?_, ?_, fun l k i hk hi => field_getElem? l k i hk hi⟩
  · rw [styleSessions_ok envS hs]
    rfl
  · rw [styleSessionInfo_ok envW sessionName hw]
    rfl

theorem C1_records_are_the_long_lines_witness :
    (styleSessions (twoListings (lit "\nmain:1:3\nbad:line\n\ndev:0:1:extra\n")
        (lit "0:bash:1:2\n1:2:3\n1:vim:0:1:x")) Proc.start).stdout
      = [lit "TMUX SESSIONS\n", lit "● main (3 windows)\n", lit "○ dev (1 windows)\n",
         lit "\n", lit "Enter: switch • Ctrl+d: kill • Ctrl+r: rename • Ctrl+n: new\n"]
    ∧ (styleSessionInfo (twoListings (lit "\nmain:1:3\nbad:line\n\ndev:0:1:extra\n")
        (lit "0:bash:1:2\n1:2:3\n1:vim:0:1:x")) (lit "work") Proc.start).stdout
      = [lit "SESSION: WORK\n", lit "▶ 0: bash (2 panes)\n", lit "• 1: vim (1 panes)\n",
         lit "\n"] := by
  have h := C1_records_are_the_long_lines
    (twoListings (lit "\nmain:1:3\nbad:line\n\ndev:0:1:extra\n")
      (lit "0:bash:1:2\n1:2:3\n1:vim:0:1:x"))
    (twoListings (lit "\nmain:1:3\nbad:line\n\ndev:0:1:extra\n")
      (lit "0:bash:1:2\n1:2:3\n1:vim:0:1:x")) (lit "work") (by decide) (by decide)
  refine ⟨?_, ?_⟩
  · rw [h.1]
    decide
  · rw [h.2.1]
    decide

/-- C2: whatever the query returns, neither handler fails on an index out of
range (the process is not terminated by a panic), and a line with fewer than 3
(sessions) or 4 (windows) colon-separated fields produces no write and no
failure: the loop leaves the process as it was on such a line, and a listing
with such a line among the lines of its whitespace-trimmed output is processed
exactly as the listing without it, both by the loop and by the whole handler. -/
theorem C2_short_lines_are_dropped (env env1 : Env) (sessionName : GoString)
    (l1 l2 : List GoString) (badS badW : GoString) (p : Proc)
    (hS : (Split badS colon).length < 3) (hW : (Split badW colon).length < 4) :
    (styleSessions env Proc.start).exit = none
      ∧ (styleSessionInfo env sessionName Proc.start).exit = none
      ∧ sessionsLoop env.lipgloss [badS] p = p
      ∧ windowsLoop env.lipgloss [badW] p = p
      ∧ sessionsLoop env.lipgloss (l1 ++ badS :: l2) p = sessionsLoop env.lipgloss (l1 ++ l2) p
      ∧ windowsLoop env.lipgloss (l1 ++ badW :: l2) p = windowsLoop env.lipgloss (l1 ++ l2) p
      ∧ (env1.lipgloss = env.lipgloss →
          (env.run (lit "tmux") sessionsArgs).err = false →
          (env1.run (lit "tmux") sessionsArgs).err = false →
          Split (TrimSpace (env.run (lit "tmux") sessionsArgs).output) newline
            = l1 ++ badS :: l2 →
          Split (TrimSpace (env1.run (lit "tmux") sessionsArgs).output) newline = l1 ++ l2 →
          styleSessions env Proc.start = styleSessions env1 Proc.start)
      ∧ (env1.lipgloss = env.lipgloss → env1.caseTable = env.caseTable →
          (env.run (lit "tmux") (windowsArgs sessionName)).err = false →
          (env1.run (lit "tmux") (windowsArgs sessionName)).err = false →
          Split (TrimSpace (env.run (lit "tmux") (windowsArgs sessionName)).output) newline
            = l1 ++ badW :: l2 →
          Split (TrimSpace (env1.run (lit "tmux") (windowsArgs sessionName)).output) newline
            = l1 ++ l2 →
          styleSessionInfo env sessionName Proc.start
            = styleSessionInfo env1 sessionName Proc.start) := by
  have hSn : ¬ 3 ≤ (Split badS colon).length := by omega
  have hWn : ¬ 4 ≤ (Split badW colon).length := by omega
  refine ⟨styleSessions_exit env, styleSessionInfo_exit env sessionName, ?_, ?_, ?_, ?_, ?_, ?_⟩
  · simp [sessionsLoop_eq, List.filter_cons, hSn]
  · simp [windowsLoop_eq, List.filter_cons, hWn]
  · rw [sessionsLoop_eq, sessionsLoop_eq, filter_insert_short 3 l1 l2 badS hS]
  · rw [windowsLoop_eq, windowsLoop_eq, filter_insert_short 4 l1 l2 badW hW]
  · intro hlg he he1 hl hl1
    rw [styleSessions_ok env he, styleSessions_ok env1 he1, recordLines, recordLines, hl, hl1,
      filter_insert_short 3 l1 l2 badS hS, hlg]
  · intro hlg htbl he he1 hl hl1
    rw [styleSessionInfo_ok env sessionName he, styleSessionInfo_ok env1 sessionName he1,
      recordLines, recordLines, hl, hl1, filter_insert_short 4 l1 l2 badW hW, hlg, htbl]

theorem C2_short_lines_are_dropped_witness :
    (styleSessions (twoListings (lit "a:1:2:3\nx:y\nb:0:1:4") (lit "a:1:2:3\nx:y:z\nb:0:1:4"))
        Proc.start).exit = none
      ∧ styleSessions (twoListings (lit "a:1:2:3\nx:y\nb:0:1:4") (lit "a:1:2:3\nx:y:z\nb:0:1:4"))
          Proc.start
        = styleSessions (plainEnv (lit "a:1:2:3\nb:0:1:4")) Proc.start
      ∧ styleSessionInfo
          (twoListings (lit "a:1:2:3\nx:y\nb:0:1:4") (lit "a:1:2:3\nx:y:z\nb:0:1:4"))
          (lit "work") Proc.start
        = styleSessionInfo (plainEnv (lit "a:1:2:3\nb:0:1:4")) (lit "work") Proc.start := by
  have h := C2_short_lines_are_dropped
    (twoListings (lit "a:1:2:3\nx:y\nb:0:1:4") (lit "a:1:2:3\nx:y:z\nb:0:1:4"))
    (plainEnv (lit "a:1:2:3\nb:0:1:4")) (lit "work") [lit "a:1:2:3"] [lit "b:0:1:4"]
    (lit "x:y") (lit "x:y:z") Proc.start (by decide) (by decide)
  exact ⟨h.1, h.2.2.2.2.2.2.1 rfl (by decide) (by decide) (by decide) (by decide),
    h.2.2.2.2.2.2.2 rfl rfl (by decide) (by decide) (by decide) (by decide)⟩

/-- C3: for every list of session rows (name, flag, count) whose fields hold
no ':' and no newline and whose listing (one `name:flag:count` line per row,
joined by newlines) is left unchanged by whitespace trimming, `styleSessions`
on that successful output prints, with styling erased: the header
"TMUX SESSIONS"; then for each row, in list order, one line made of "●" when
the flag is exactly "1" and "○" otherwise, the name, and "(<count> windows)";
then a blank line; then the fixed keybinding footer. -/
theorem C3_sessions_listing (caseTable : Nat → Nat)
    (run : GoString → List GoString → QueryResult) (rows : List SessionRow)
    (hfields : ∀ r ∈ rows, ∀ f ∈ r.fields, colon ∉ f ∧ newline ∉ f)
    (htrim : TrimSpace (serializeSessions rows) = serializeSessions rows)
    (hrun : run (lit "tmux") sessionsArgs = ⟨serializeSessions rows, false⟩) :
    (styleSessions ⟨Lipgloss.plain, caseTable, run⟩ Proc.start).stdout
      = [lit "TMUX SESSIONS\n"]
        ++ rows.map (fun r => (if r.flag = lit "1" then lit "●" else lit "○") ++ lit " "
            ++ r.name ++ lit " (" ++ r.count ++ lit " windows)\n")
        ++ [lit "\n", lit "Enter: switch • Ctrl+d: kill • Ctrl+r: rename • Ctrl+n: new\n"] := by
  have hser : serializeSessions rows
      = Join newline ((rows.map SessionRow.fields).map (Join colon)) := by
    simp [serializeSessions, List.map_map, Function.comp_def]
  have hrec : recordLines 3 (serializeSessions rows)
      = (rows.map SessionRow.fields).map (Join colon) := by
    rw [hser]
    apply recordLines_of_listing 3 (by omega)
    · intro r hr
      rw [List.mem_map] at hr
      obtain ⟨r1, _, rfl⟩ := hr
      rfl
    · intro r hr
      rw [List.mem_map] at hr
      obtain ⟨r1, hr1, rfl⟩ := hr
      exact hfields r1 hr1
    · rw [← hser]
      exact htrim
  have herr : ((⟨Lipgloss.plain, caseTable, run⟩ : Env).run (lit "tmux") sessionsArgs).err
      = false := by
    simp [hrun]
  rw [styleSessions_ok _ herr]
  simp only [hrun, hrec, List.map_map]
  have hh : Lipgloss.plain.Render headerStyle (lit "TMUX SESSIONS") ++ [newline]
      = lit "TMUX SESSIONS\n" := by decide
  have hf : Lipgloss.plain.Render inactiveSessionStyle sessionsFooter ++ [newline]
      = lit "Enter: switch • Ctrl+d: kill • Ctrl+r: rename • Ctrl+n: new\n" := by decide
  have hn : [newline] = lit "\n" := by decide
  rw [hh, hf, hn]
  congr 2
  apply List.map_congr_left
  intro r hr
  simp only [Function.comp_apply]
  rw [sessionRecordOf_row r (fun f hf => (hfields r hr f hf).1), sessionRecord_printed_plain]
  by_cases h1 : r.flag = lit "1" <;> simp [h1]

theorem C3_sessions_listing_witness :
    serializeSessions [⟨lit "main", lit "1", lit "3"⟩, ⟨lit "dev", lit "0", lit "1"⟩]
        = lit "main:1:3\ndev:0:1"
      ∧ (styleSessions (plainEnv (lit "main:1:3\ndev:0:1")) Proc.start).stdout
        = [lit "TMUX SESSIONS\n", lit "● main (3 windows)\n", lit "○ dev (1 windows)\n",
           lit "\n", lit "Enter: switch • Ctrl+d: kill • Ctrl+r: rename • Ctrl+n: new\n"] := by
  have h := C3_sessions_listing id (fun _ _ => ⟨lit "main:1:3\ndev:0:1", false⟩)
    [⟨lit "main", lit "1", lit "3"⟩, ⟨lit "dev", lit "0", lit "1"⟩]
    (by decide) (by decide) (by decide)
  refine ⟨by decide, ?_⟩
  rw [plainEnv, h]
  decide

/-- C4: for every session name and every list of window rows (index, name,
flag, paneCount) whose fields hold no ':' and no newline and whose listing (one
`index:name:flag:paneCount` line per row, joined by newlines) is left unchanged
by whitespace trimming, `styleSessionInfo` on that successful output prints,
with styling erased: the header "SESSION: " followed by the upper-cased session
name; then for each row, in list order, exactly
"<indicator> <index>: <name> (<paneCount> panes)" with indicator "▶" when the
flag is exactly "1" and "•" otherwise; then a blank line. -/
theorem C4_windows_listing (caseTable : Nat → Nat)
    (run : GoString → List GoString → QueryResult) (sessionName : GoString)
    (rows : List WindowRow)
    (hfields : ∀ r ∈ rows, ∀ f ∈ r.fields, colon ∉ f ∧ newline ∉ f)
    (htrim : TrimSpace (serializeWindows rows) = serializeWindows rows)
    (hrun : run (lit "tmux") (windowsArgs sessionName) = ⟨serializeWindows rows, false⟩) :
    (styleSessionInfo ⟨Lipgloss.plain, caseTable, run⟩ sessionName Proc.start).stdout
      = [lit "SESSION: " ++ ToUpper caseTable sessionName ++ lit "\n"]
        ++ rows.map (fun r => (if r.flag = lit "1" then lit "▶" else lit "•") ++ lit " "
            ++ r.index ++ lit ": " ++ r.name ++ lit " (" ++ r.paneCount ++ lit " panes)\n")
        ++ [lit "\n"] := by
  have hser : serializeWindows rows
      = Join newline ((rows.map WindowRow.fields).map (Join colon)) := by
    simp [serializeWindows, List.map_map, Function.comp_def]
  have hrec : recordLines 4 (serializeWindows rows)
      = (rows.map WindowRow.fields).map (Join colon) := by
    rw [hser]
    apply recordLines_of_listing 4 (by omega)
    · intro r hr
      rw [List.mem_map] at hr
      obtain ⟨r1, _, rfl⟩ := hr
      rfl
    · intro r hr
      rw [List.mem_map] at hr
      obtain ⟨r1, hr1, rfl⟩ := hr
      exact hfields r1 hr1
    · rw [← hser]
      exact htrim
  have herr : ((⟨Lipgloss.plain, caseTable, run⟩ : Env).run (lit "tmux")
      (windowsArgs sessionName)).err = false := by
    simp [hrun]
  rw [styleSessionInfo_ok _ _ herr]
  simp only [hrun, hrec, List.map_map]
  have hn : [newline] = lit "\n" := by decide
  have hh : Lipgloss.plain.Render headerStyle (lit "SESSION: " ++ ToUpper caseTable sessionName)
      ++ [newline] = lit "SESSION: " ++ ToUpper caseTable sessionName ++ lit "\n" := by
    rw [hn]
    simp [Lipgloss.plain]
  rw [hh, hn]
  congr 2
  apply List.map_congr_left
  intro r hr
  simp only [Function.comp_apply]
  rw [windowRecordOf_row r (fun f hf => (hfields r hr f hf).1), windowRecord_printed_plain]
  by_cases h1 : r.flag = lit "1" <;> simp [h1]

theorem C4_windows_listing_witness :
    serializeWindows [⟨lit "0", lit "bash", lit "1", lit "2"⟩, ⟨lit "1", lit "vim", lit "0", lit "1"⟩]
        = lit "0:bash:1:2\n1:vim:0:1"
      ∧ (styleSessionInfo (plainEnv (lit "0:bash:1:2\n1:vim:0:1")) (lit "work") Proc.start).stdout
        = [lit "SESSION: WORK\n", lit "▶ 0: bash (2 panes)\n", lit "• 1: vim (1 panes)\n",
           lit "\n"] := by
  have h := C4_windows_listing id (fun _ _ => ⟨lit "0:bash:1:2\n1:vim:0:1", false⟩) (lit "work")
    [⟨lit "0", lit "bash", lit "1", lit "2"⟩, ⟨lit "1", lit "vim", lit "0", lit "1"⟩]
    (by decide) (by decide) (by decide)
  refine ⟨by decide, ?_⟩
  rw [plainEnv, h]
  decide

/-- C5: whenever the session query returns an error, whatever bytes it
produced, the `sessions` command writes exactly the one line
"No tmux sessions found" (no header, no record line, no footer), makes that one
query, and the process exit status is 0. -/
theorem C5_sessions_query_error (env : Env) (argv0 : GoString) (rest : List GoString)
    (h : (env.run (lit "tmux") sessionsArgs).err = true) :
    (main env (argv0 :: lit "sessions" :: rest)).stdout = [lit "No tmux sessions found\n"]
      ∧ (main env (argv0 :: lit "sessions" :: rest)).exitStatus = 0 := by
  rw [main_sessions, styleSessions_err env h]
  exact ⟨rfl, rfl⟩

theorem C5_sessions_query_error_witness :
    (failingEnv.run (lit "tmux") sessionsArgs).output = lit "no server running"
      ∧ (main failingEnv [lit "tmux-styler", lit "sessions"]).bytes
          = lit "No tmux sessions found\n"
      ∧ (main failingEnv [lit "tmux-styler", lit "sessions"]).exitStatus = 0 := by
  have h := C5_sessions_query_error failingEnv (lit "tmux-styler") [] rfl
  refine ⟨rfl, ?_, h.2⟩
  rw [Proc.bytes, h.1]
  decide

/-- C6: for every session name `s`, whenever the window query returns an
error, `session-info s` writes exactly the one line "Session '<s>' not found"
with `s` verbatim (not upper-cased, no header, no window line), and the process
exit status is 0. -/
theorem C6_session_info_query_error (env : Env) (argv0 s : GoString) (rest : List GoString)
    (h : (env.run (lit "tmux") (windowsArgs s)).err = true) :
    (main env (argv0 :: lit "session-info" :: s :: rest)).stdout
        = [lit "Session \x27" ++ s ++ lit "\x27 not found\n"]
      ∧ (main env (argv0 :: lit "session-info" :: s :: rest)).exitStatus = 0 := by
  rw [main_sessionInfo, styleSessionInfo_err env s h]
  exact ⟨rfl, rfl⟩

theorem C6_session_info_query_error_witness :
    (main failingEnv [lit "tmux-styler", lit "session-info", lit "missing"]).stdout
        = [lit "Session \x27missing\x27 not found\n"]
      ∧ (main failingEnv [lit "tmux-styler", lit "session-info", lit "missing"]).exitStatus
        = 0 := by
  have h := C6_session_info_query_error failingEnv (lit "tmux-styler") (lit "missing") [] rfl
  refine ⟨?_, h.2⟩
  rw [h.1]
  decide

/-- C7: for every argument vector and every environment, the exit status is 1
exactly when the command is missing, the command is neither "sessions" nor
"session-info", or the command is "session-info" with no session name; in
every other case it is 0; and when it is 1 no external query was made. -/
theorem C7_exit_status (env : Env) (osArgs : List GoString) :
    ((main env osArgs).exitStatus = 1 ↔
        (osArgs.length < 2
          ∨ (∃ c, osArgs[1]? = some c ∧ c ≠ lit "sessions" ∧ c ≠ lit "session-info")
          ∨ (osArgs[1]? = some (lit "session-info") ∧ osArgs.length < 3)))
      ∧ ((main env osArgs).exitStatus = 0 ∨ (main env osArgs).exitStatus = 1)
      ∧ ((main env osArgs).exitStatus = 1 → (main env osArgs).execs = []) := by
  match osArgs with
  | [] => simp [main_no_command env [] (by simp), Proc.exitStatus]
  | [a] => simp [main_no_command env [a] (by simp), Proc.exitStatus]
  | a :: c :: rest =>
    by_cases h1 : c = lit "sessions"
    · subst h1
      have hne : lit "sessions" ≠ lit "session-info" := by decide
      simp [main_sessions, Proc.exitStatus, styleSessions_exit, hne]
    · by_cases h2 : c = lit "session-info"
      · subst h2
        cases rest with
        | nil => simp [main_sessionInfo_missing, Proc.exitStatus]
        | cons s rest =>
          simp [main_sessionInfo, Proc.exitStatus, styleSessionInfo_exit]
      · simp [main_unknown env a c rest h1 h2, Proc.exitStatus, h1, h2]

theorem C7_exit_status_witness :
    (main failingEnv [lit "tmux-styler"]).exitStatus = 1
      ∧ (main failingEnv [lit "tmux-styler"]).execs = []
      ∧ (main failingEnv [lit "tmux-styler", lit "session-info"]).exitStatus = 1
      ∧ (main failingEnv [lit "tmux-styler", lit "list"]).exitStatus = 1
      ∧ (main failingEnv [lit "tmux-styler", lit "sessions"]).exitStatus = 0
      ∧ (main failingEnv [lit "tmux-styler", lit "session-info", lit "work"]).exitStatus = 0 := by
  have h := C7_exit_status failingEnv [lit "tmux-styler"]
  have h1 : (main failingEnv [lit "tmux-styler"]).exitStatus = 1 := h.1.mpr (Or.inl (by decide))
  exact ⟨h1, h.2.2 h1, by decide, by decide, by decide, by decide⟩

/-- C8 (as amended): the dispatcher runs the window lister whenever
"session-info" is followed by at least one more argument, on the first of them
and ignoring the rest; only when "session-info" is followed by no argument does
the program print the usage message and terminate with status 1 without
querying the multiplexer. -/
theorem C8_session_info_dispatch (env : Env) (argv0 : GoString) :
    (main env [argv0, lit "session-info"]).stdout
        = [lit "Usage: tmux-styler session-info <session-name>\n"]
      ∧ (main env [argv0, lit "session-info"]).exitStatus = 1
      ∧ (main env [argv0, lit "session-info"]).execs = []
      ∧ ∀ (s : GoString) (rest : List GoString),
          main env (argv0 :: lit "session-info" :: s :: rest)
              = styleSessionInfo env s Proc.start
            ∧ (main env (argv0 :: lit "session-info" :: s :: rest)).exitStatus = 0
            ∧ (main env (argv0 :: lit "session-info" :: s :: rest)).execs
                = [lit "tmux" :: windowsArgs s] := by
  rw [main_sessionInfo_missing]
  refine ⟨rfl, rfl, rfl, ?_⟩
  intro s rest
  rw [main_sessionInfo]
  exact ⟨rfl, by simp [Proc.exitStatus, styleSessionInfo_exit], styleSessionInfo_execs env s⟩

/-- C8 (as stated) fails: "session-info" followed by two additional arguments
queries the multiplexer for the first of them, prints the window list and
exits with status 0; no usage message is printed. -/
theorem C8_counterexample :
    (main (plainEnv (lit "0:bash:1:2"))
        [lit "tmux-styler", lit "session-info", lit "work", lit "extra"])
      = ⟨[lit "SESSION: WORK\n", lit "▶ 0: bash (2 panes)\n", lit "\n"],
         [lit "tmux" :: windowsArgs (lit "work")], none⟩
    ∧ (main (plainEnv (lit "0:bash:1:2"))
        [lit "tmux-styler", lit "session-info", lit "work", lit "extra"]).exitStatus = 0 := by
  decide

/-- C9 (as amended): when the session query succeeds but the trimmed output is
empty, or no line of it has at least three colon-separated fields, `sessions`
prints the "TMUX SESSIONS" header, a blank line and the keybinding footer, with
no record line in between, and the process exit status is 0; with styling
erased, none of these writes is the line "No tmux sessions found". -/
theorem C9_sessions_empty_listing (env : Env) (argv0 : GoString) (rest : List GoString)
    (herr : (env.run (lit "tmux") sessionsArgs).err = false)
    (hempty : TrimSpace (env.run (lit "tmux") sessionsArgs).output = []
      ∨ ∀ l ∈ Split (TrimSpace (env.run (lit "tmux") sessionsArgs).output) newline,
          (Split l colon).length < 3) :
    (main env (argv0 :: lit "sessions" :: rest)).stdout
        = [env.lipgloss.Render headerStyle (lit "TMUX SESSIONS") ++ [newline],
           [newline],
           env.lipgloss.Render inactiveSessionStyle sessionsFooter ++ [newline]]
      ∧ (main env (argv0 :: lit "sessions" :: rest)).exitStatus = 0
      ∧ (env.lipgloss = Lipgloss.plain →
          lit "No tmux sessions found\n" ∉ (main env (argv0 :: lit "sessions" :: rest)).stdout) := by
  have hshort : ∀ l ∈ Split (TrimSpace (env.run (lit "tmux") sessionsArgs).output) newline,
      (Split l colon).length < 3 := by
    rcases hempty with h | h
    · rw [h]
      intro l hl
      simp only [Split_nil, List.mem_singleton] at hl
      subst hl
      simp [Split_nil]
    · exact h
  have hout : (main env (argv0 :: lit "sessions" :: rest)).stdout
      = [env.lipgloss.Render headerStyle (lit "TMUX SESSIONS") ++ [newline],
         [newline],
         env.lipgloss.Render inactiveSessionStyle sessionsFooter ++ [newline]] := by
    rw [main_sessions, styleSessions_ok env herr]
    simp [recordLines, filter_short_eq_nil 3 _ hshort]
  refine ⟨hout, ?_, ?_⟩
  · rw [main_sessions]
    simp [Proc.exitStatus, styleSessions_exit]
  · intro hlg
    rw [hout, hlg]
    decide

theorem C9_sessions_empty_listing_witness :
    (main (plainEnv (lit " \n:x\njunk\n")) [lit "tmux-styler", lit "sessions"]).stdout
        = [lit "TMUX SESSIONS\n", lit "\n",
           lit "Enter: switch • Ctrl+d: kill • Ctrl+r: rename • Ctrl+n: new\n"]
      ∧ (main (plainEnv (lit " \n:x\njunk\n")) [lit "tmux-styler", lit "sessions"]).exitStatus
        = 0
      ∧ lit "No tmux sessions found\n"
          ∉ (main (plainEnv (lit " \n:x\njunk\n")) [lit "tmux-styler", lit "sessions"]).stdout := by
  have h := C9_sessions_empty_listing (plainEnv (lit " \n:x\njunk\n")) (lit "tmux-styler") []
    rfl (Or.inr (by decide))
  refine ⟨?_, h.2.1, h.2.2 rfl⟩
  rw [h.1]
  decide

/-- C9 (as stated) fails: on a successful query with empty output, `sessions`
prints the header, a blank line and the footer, and does not print
"No tmux sessions found". -/
theorem C9_counterexample :
    (main (plainEnv (lit "")) [lit "tmux-styler", lit "sessions"]).stdout
        = [lit "TMUX SESSIONS\n", lit "\n",
           lit "Enter: switch • Ctrl+d: kill • Ctrl+r: rename • Ctrl+n: new\n"]
      ∧ lit "No tmux sessions found\n"
          ∉ (main (plainEnv (lit "")) [lit "tmux-styler", lit "sessions"]).stdout := by
  decide

/-- C10 (as amended): what `styleSessionInfo` prints for a window line depends
only on the first four colon-separated fields of the line: two listings whose
lines agree pairwise on their first four fields are printed identically,
whatever follows the fourth field. So a window whose name contains ':' is
misread: the line "0:a:b:1:2" (index "0", name "a:b", active, 2 panes) is not
printed as "▶ 0: a:b (2 panes)"; the name is cut at its first colon, the
active flag is read from the rest of the name, and the pane count shown is the
flag: the line printed is "• 0: a (1 panes)". -/
theorem C10_only_first_four_fields (lg : Lipgloss) (ws1 ws2 : List GoString) (p : Proc)
    (h : List.Forall₂ (fun a b => (Split a colon).take 4 = (Split b colon).take 4) ws1 ws2) :
    windowsLoop lg ws1 p = windowsLoop lg ws2 p
      ∧ (styleSessionInfo (plainEnv (lit "0:a:b:1:2")) (lit "work") Proc.start).stdout
          = [lit "SESSION: WORK\n", lit "• 0: a (1 panes)\n", lit "\n"]
      ∧ lit "▶ 0: a:b (2 panes)\n"
          ∉ (styleSessionInfo (plainEnv (lit "0:a:b:1:2")) (lit "work") Proc.start).stdout := by
  refine ⟨?_, by decide, by decide⟩
  rw [windowsLoop_eq, windowsLoop_eq, windows_printed_congr lg ws1 ws2 h]

theorem C10_only_first_four_fields_witness :
    windowsLoop Lipgloss.plain [lit "0:a:b:1:2"] Proc.start
        = windowsLoop Lipgloss.plain [lit "0:a:b:1"] Proc.start
      ∧ (windowsLoop Lipgloss.plain [lit "0:a:b:1:2"] Proc.start).stdout
        = [lit "• 0: a (1 panes)\n"] := by
  have h := C10_only_first_four_fields Lipgloss.plain [lit "0:a:b:1:2"] [lit "0:a:b:1"]
    Proc.start (List.Forall₂.cons (by decide) List.Forall₂.nil)
  exact ⟨h.1, by decide⟩

/-- C10 (as stated) fails at its own example: for the line "0:a:b:1:2" the
window lister prints "• 0: a (1 panes)", the pane count shown being the
fourth field "1", and does not print "• 0: a (b panes)". -/
theorem C10_counterexample :
    (main (plainEnv (lit "0:a:b:1:2")) [lit "tmux-styler", lit "session-info", lit "work"]).stdout
        = [lit "SESSION: WORK\n", lit "• 0: a (1 panes)\n", lit "\n"]
      ∧ lit "• 0: a (b panes)\n"
          ∉ (main (plainEnv (lit "0:a:b:1:2"))
              [lit "tmux-styler", lit "session-info", lit "work"]).stdout
      ∧ Split (lit "0:a:b:1:2") colon = [lit "0", lit "a", lit "b", lit "1", lit "2"] := by
  decide

end TmuxStyler
